import Mathlib

/-!
Verification development for the retl configuration-to-dataframe-plan
compiler. The Rust sources are shallowly embedded: every tagged union
becomes a Lean inductive, every fallible function returns an
Except-valued result, and the process-global state touched by the code
(the current working directory, the file system, the trace of external
side effects) is threaded through an explicit state monad. Types of the
external polars engine (Expr, LazyFrame, DataType, Schema, Selector)
are modelled as opaque-but-inspectable plan syntax: the code under
verification only builds these values, it never executes them, so a
constructor per builder call is a faithful image of what the code
produces.
-/

namespace Retl

/-! ## External engine types, modelled opaquely (polars is out of scope) -/

/-- Wraps the external polars DataType (utils.rs, struct DataType).
The inner value is opaque to the code under verification, so it is
modelled by a name. -/
structure DataType where
  name : String
deriving Repr, DecidableEq

/-- External polars StrptimeOptions, opaque to the code; modelled by an
optional format string. -/
structure StrptimeOptions where
  fmt : Option String := none
deriving Repr, DecidableEq

/-- External polars TimeUnit, opaque to the code. -/
structure TimeUnit where
  unit : String
deriving Repr, DecidableEq

/-- External polars TimeZone, opaque to the code. -/
structure TimeZone where
  zone : String
deriving Repr, DecidableEq

/-- Errors raised by the configuration layer (utils.rs, enum Error).
The legacy modules lib.rs and conditions.rs use an Error enum with only
the Other variant; both are modelled by this one type. -/
inductive Error where
  /-- Returned when attempting to run a configuration that does not
  contain any exports. -/
  | noExports
  /-- Other unspecified error encountered during parsing. -/
  | other (msg : String)
deriving Repr, DecidableEq

/-- Image of the external polars Expr builder API: one constructor per
builder call the embedded code performs. Two Expr values are equal
exactly when the code built them by the same sequence of calls. -/
inductive Expr where
  | col (name : String)
  | litStr (s : String)
  | litInt (n : Int)
  | litNull
  | len
  | and (a b : Expr)
  | or (a b : Expr)
  | not (a : Expr)
  | strContains (e pat : Expr) (strict : Bool)
  | strExtractGroups (e : Expr) (pat : String)
  | alias (e : Expr) (name : String)
  | isNull (e : Expr)
  | isNotNull (e : Expr)
  | fillNull (e v : Expr)
  | dropNulls (e : Expr)
  | strLenChars (e : Expr)
  | strStripChars (e chars : Expr)
  | strToLowercase (e : Expr)
  | strToDate (e : Expr) (options : StrptimeOptions)
  | strToDatetime (e : Expr) (timeUnit : Option TimeUnit) (timeZone : Option TimeZone)
      (options : StrptimeOptions) (ambiguous : Expr)
  | strReplaceAll (e pat value : Expr) (literal : Bool)
  | strJsonDecode (e : Expr) (dtype : Option DataType) (inferSchemaLen : Option Nat)
  | strZfill (e fill : Expr)
  | eq (a b : Expr)
  | neq (a b : Expr)
  | gt (a b : Expr)
  | lt (a b : Expr)
  | gtEq (a b : Expr)
  | ltEq (a b : Expr)
  | listJoin (e sep : Expr) (ignoreNulls : Bool)
  | listEval (e inner : Expr)
  | filter (e pred : Expr)
  | listFirst (e : Expr)
  | div (a b : Expr)
  | mul (a b : Expr)
  | add (a b : Expr)
  | sub (a b : Expr)
  | cast (e : Expr) (dtype : DataType)
  | structJsonEncode (e : Expr)
  | structFieldByName (e : Expr) (name : String)
  | asStruct (fields : List Expr)
  | intRange (start stop : Expr) (step : Int) (dtype : DataType)
  | concatStr (es : List Expr) (separator : String) (ignoreNulls : Bool)
  | whenThenOtherwise (w t o : Expr)
deriving Repr

/-- Result type of the fallible Rust functions (anyhow::Result). -/
abbrev RResult (α : Type) : Type := Except Error α

/-! ## Expression and operation AST (expressions.rs and ops.rs) -/

/-- Match a column against a regex (expressions.rs, struct Match). -/
structure Match where
  column : String
  pattern : String
deriving Repr, DecidableEq

/-- Evaluation of Match (expressions.rs, impl Expression for Match):
col(column).str().contains(lit(pattern), true). -/
def Match.expr (m : Match) : RResult Expr :=
  .ok (.strContains (.col m.column) (.litStr m.pattern) true)

/-- Ambiguous datetime handling (ops.rs, enum Ambiguous). -/
inductive Ambiguous where
  | raise
  | earliest
  | latest
  | null
deriving Repr, DecidableEq

/-- Evaluation of Ambiguous (ops.rs, impl Expression for Ambiguous). -/
def Ambiguous.expr : Ambiguous → RResult Expr
  | .raise => .ok (.litStr "raise")
  | .earliest => .ok (.litStr "earliest")
  | .latest => .ok (.litStr "latest")
  | .null => .ok (.litStr "null")

mutual

/-- Available expressions (expressions.rs, enum ExpressionItem). The
single-field wrapper structs of the source (Column, Literal, And, Or,
AsStruct, IntRange, ConcatStr, Condition) are inlined into their
variants; Match is kept as a struct because transforms.rs also uses it
standalone. -/
inductive ExpressionItem where
  /-- Col(Column): specify a column by name. -/
  | col (name : String)
  /-- Match: match a regex against a column. -/
  | matchItem (m : Match)
  /-- And: group 2+ items together in a logical AND statement. -/
  | and (conditions : List ExpressionItem)
  /-- Or: group 2+ items together in a logical OR statement. -/
  | or (conditions : List ExpressionItem)
  /-- Not: logically invert the given expression. -/
  | not (chain : ExpressionChain)
  /-- Lit(Literal): a literal string value. -/
  | lit (value : String)
  /-- Null: literal null value. -/
  | null
  /-- Len: evaluates to the number of rows. -/
  | len
  /-- AsStruct: combine expressions into a struct column. -/
  | asStruct (chains : List ExpressionChain)
  /-- IntRange: generate a range of integers. -/
  | intRange (start step : Int) (dtype : DataType)
  /-- ConcatStr: concatenate string expressions horizontally. -/
  | concatStr (columns : List ExpressionChain) (separator : String) (ignoreNulls : Bool)
  /-- Element: the current element in a list eval expression. -/
  | element
  /-- Condition: a when/then/otherwise expression. -/
  | condition (w t o : ExpressionChain)

/-- An expression grouped together with chained operations
(expressions.rs, struct ExpressionChain). -/
inductive ExpressionChain where
  | mk (expr : ExpressionItem) (ops : List OpItem)

/-- Possible operations applied to an expression (ops.rs, enum OpItem).
Single-field wrapper structs (ExtractGroups, Alias, Contains, IsNull,
Or, And, FillNull, DropNull, Eq, GtEq, LtEq, Div, Mul, Add, Sub, Cast)
are inlined into their variants. -/
inductive OpItem where
  | extractGroups (pat : String)
  | alias (name : String)
  | contains (pat : String)
  | isNull (b : Bool)
  /-- Or: chain an expression into a logical OR with conditions on one
  or more columns (so reads the doc comment in ops.rs). -/
  | or (chains : List ExpressionChain)
  /-- And: chain an expression into a logical AND with conditions on
  one or more columns. -/
  | and (chains : List ExpressionChain)
  | fillNull (chain : ExpressionChain)
  | dropNull
  | str (op : Str)
  | eq (chain : ExpressionChain)
  | neq (chain : ExpressionChain)
  | gt (chain : ExpressionChain)
  | lt (chain : ExpressionChain)
  | gtEq (chain : ExpressionChain)
  | ltEq (chain : ExpressionChain)
  | list (op : ListOp)
  | div (chain : ExpressionChain)
  | mul (chain : ExpressionChain)
  | add (chain : ExpressionChain)
  | sub (chain : ExpressionChain)
  | cast (dtype : DataType)
  | structOp (op : StructOp)

/-- A str-namespaced operation (ops.rs, enum Str). -/
inductive Str where
  | len
  | stripChars (chain : ExpressionChain)
  | toLowercase
  | toDate (options : StrptimeOptions)
  | toDatetime (timeUnit : Option TimeUnit) (timeZone : Option TimeZone)
      (options : StrptimeOptions) (ambiguous : Ambiguous)
  | replaceAll (pat : String) (value : ExpressionChain) (literal : Bool)
  | jsonDecode (dtype : Option DataType) (inferSchemaLen : Option Nat)
  | zfill (n : Nat)

/-- A list-namespaced operation (ops.rs, enum List). -/
inductive ListOp where
  | join (chain : ExpressionChain)
  | filter (chain : ExpressionChain)
  | first

/-- A struct-namespaced operation (ops.rs, enum Struct). -/
inductive StructOp where
  | jsonEncode
  | field (name : String)

end

/-- Application of a struct-namespaced operation (ops.rs, impl Op for
Struct); infallible. -/
def StructOp.apply : StructOp → Expr → Expr
  | .jsonEncode, e => .structJsonEncode e
  | .field name, e => .structFieldByName e name

mutual

/-- Evaluation of ExpressionItem (expressions.rs, impl Expression for
ExpressionItem together with the impls of the wrapped structs). -/
def ExpressionItem.expr : ExpressionItem → RResult Expr
  | .col name => .ok (.col name)
  | .matchItem m => m.expr
  | .and conditions => do
      -- impl Expression for And: a loop over the conditions with an
      -- Option accumulator, folding with a logical AND, then a context
      -- error when the accumulator stayed empty.
      match ← itemFoldAnd conditions none with
      | some ex => .ok ex
      | none => .error (.other "and statement must have at least 2 conditions")
  | .or conditions => do
      match ← itemFoldOr conditions none with
      | some ex => .ok ex
      | none => .error (.other "or statement must have at least 2 conditions")
  | .not chain => do
      .ok (.not (← chain.expr))
  | .lit value => .ok (.litStr value)
  | .null => .ok .litNull
  | .len => .ok .len
  | .asStruct chains => do
      .ok (.asStruct (← chainExprs chains))
  | .intRange start step dtype => .ok (.intRange (.litInt start) .len step dtype)
  | .concatStr columns separator ignoreNulls => do
      .ok (.concatStr (← chainExprs columns) separator ignoreNulls)
  | .element => .ok (.col "")
  | .condition w t o => do
      .ok (.whenThenOtherwise (← w.expr) (← t.expr) (← o.expr))

/-- The accumulator loop of impl Expression for And (expressions.rs):
the first condition seeds the accumulator, each following condition is
combined with a logical AND. -/
def itemFoldAnd : List ExpressionItem → Option Expr → RResult (Option Expr)
  | [], acc => .ok acc
  | cond :: rest, acc => do
      let ce ← cond.expr
      match acc with
      | none => itemFoldAnd rest (some ce)
      | some ex => itemFoldAnd rest (some (.and ex ce))

/-- The accumulator loop of impl Expression for Or (expressions.rs). -/
def itemFoldOr : List ExpressionItem → Option Expr → RResult (Option Expr)
  | [], acc => .ok acc
  | cond :: rest, acc => do
      let ce ← cond.expr
      match acc with
      | none => itemFoldOr rest (some ce)
      | some ex => itemFoldOr rest (some (.or ex ce))

/-- Collect the evaluations of a list of chains, stopping at the first
error (the iter().map(..).collect::<Result<Vec<_>>> idiom). -/
def chainExprs : List ExpressionChain → RResult (List Expr)
  | [] => .ok []
  | c :: rest => do
      let e ← c.expr
      let es ← chainExprs rest
      .ok (e :: es)

/-- Evaluation of ExpressionChain (expressions.rs, impl Expression for
ExpressionChain): try_fold of the operation list over the evaluated
base expression. -/
def ExpressionChain.expr : ExpressionChain → RResult Expr
  | .mk base ops => do
      opsFold ops (← base.expr)

/-- The try_fold of ExpressionChain.expr, written as explicit list
recursion: each operation consumes the accumulated expression. -/
def opsFold : List OpItem → Expr → RResult Expr
  | [], e => .ok e
  | op :: rest, e => do
      opsFold rest (← op.apply e)

/-- Application of one operation (ops.rs, OpItem::apply dispatching to
the impl Op blocks of the wrapped structs). -/
def OpItem.apply : OpItem → Expr → RResult Expr
  | .extractGroups pat, e => .ok (.strExtractGroups e pat)
  | .alias name, e => .ok (.alias e name)
  | .contains pat, e => .ok (.strContains e (.litStr pat) true)
  | .isNull b, e => .ok (if b then .isNull e else .isNotNull e)
  | .or chains, e =>
      -- impl Op for Or (ops.rs lines 140-148): NOTE the fold combines
      -- with a logical AND, although the doc comment of the struct
      -- promises a logical OR.
      chainsFoldAnd chains e
  | .and chains, e =>
      -- impl Op for And (ops.rs lines 155-163): fold with logical AND.
      chainsFoldAnd chains e
  | .fillNull chain, e => do
      .ok (.fillNull e (← chain.expr))
  | .dropNull, e => .ok (.dropNulls e)
  | .str op, e => op.apply e
  | .eq chain, e => do
      .ok (.eq e (← chain.expr))
  | .neq chain, e => do
      .ok (.neq e (← chain.expr))
  | .gt chain, e => do
      .ok (.gt e (← chain.expr))
  | .lt chain, e => do
      .ok (.lt e (← chain.expr))
  | .gtEq chain, e => do
      .ok (.gtEq e (← chain.expr))
  | .ltEq chain, e => do
      .ok (.ltEq e (← chain.expr))
  | .list op, e => op.apply e
  | .div chain, e => do
      .ok (.div e (← chain.expr))
  | .mul chain, e => do
      .ok (.mul e (← chain.expr))
  | .add chain, e => do
      .ok (.add e (← chain.expr))
  | .sub chain, e => do
      .ok (.sub e (← chain.expr))
  | .cast dtype, e => .ok (.cast e dtype)
  | .structOp op, e => .ok (op.apply e)

/-- The try_fold shared verbatim by impl Op for Or and impl Op for And
in ops.rs: Ok(chain.and(next_expr.expr()?)) where chain is the
accumulator. Both operations fold with Expr.and. -/
def chainsFoldAnd : List ExpressionChain → Expr → RResult Expr
  | [], e => .ok e
  | c :: rest, e => do
      chainsFoldAnd rest (.and e (← c.expr))

/-- Application of a str-namespaced operation (ops.rs, impl Op for
Str). -/
def Str.apply : Str → Expr → RResult Expr
  | .len, e => .ok (.strLenChars e)
  | .stripChars chain, e => do
      .ok (.strStripChars e (← chain.expr))
  | .toLowercase, e => .ok (.strToLowercase e)
  | .toDate options, e => .ok (.strToDate e options)
  | .toDatetime timeUnit timeZone options ambiguous, e => do
      .ok (.strToDatetime e timeUnit timeZone options (← ambiguous.expr))
  | .replaceAll pat value literal, e => do
      .ok (.strReplaceAll e (.litStr pat) (← value.expr) literal)
  | .jsonDecode dtype inferSchemaLen, e => .ok (.strJsonDecode e dtype inferSchemaLen)
  | .zfill n, e => .ok (.strZfill e (.litInt (Int.ofNat n)))

/-- Application of a list-namespaced operation (ops.rs, impl Op for
List). The Filter arm evaluates Expr::Column(EMPTY).filter(pred)
inside list().eval. -/
def ListOp.apply : ListOp → Expr → RResult Expr
  | .join chain, e => do
      .ok (.listJoin e (← chain.expr) true)
  | .filter chain, e => do
      .ok (.listEval e (.filter (.col "") (← chain.expr)))
  | .first, e => .ok (.listFirst e)

end

namespace Expressions

/-- Validating constructor of the expression-level And node
(expressions.rs, impl TryFrom of Conditions for And). -/
def And.tryFrom (value : List ExpressionItem) : RResult ExpressionItem :=
  if value.length < 2 then
    .error (.other "and statement must have at least 2 conditions")
  else
    .ok (.and value)

/-- Validating constructor of the expression-level Or node
(expressions.rs, impl TryFrom of Conditions for Or). -/
def Or.tryFrom (value : List ExpressionItem) : RResult ExpressionItem :=
  if value.length < 2 then
    .error (.other "or statement must have at least 2 conditions")
  else
    .ok (.or value)

end Expressions

/-! ## Standalone condition trees (conditions.rs) -/

namespace Conds

/-- The closed union of the registered implementations of the Condition
trait object of conditions.rs (match, and, or). -/
inductive Condition where
  | matchCond (column pattern : String)
  | and (conditions : List Condition)
  | or (conditions : List Condition)

/-- Validating constructor of the standalone And node (conditions.rs,
impl TryFrom of Conditions for And). -/
def And.tryFrom (value : List Condition) : RResult Condition :=
  if value.length < 2 then
    .error (.other "and statement must have at least 2 conditions")
  else
    .ok (.and value)

/-- Validating constructor of the standalone Or node (conditions.rs,
impl TryFrom of Conditions for Or). -/
def Or.tryFrom (value : List Condition) : RResult Condition :=
  if value.length < 2 then
    .error (.other "or statement must have at least 2 conditions")
  else
    .ok (.or value)

mutual

/-- Evaluation of a standalone condition (conditions.rs, the expr
methods of Match, And and Or). The error message of the empty Or arm
reads "and ..." in the source (a copy of the And arm) and is kept
verbatim. -/
def Condition.expr : Condition → RResult Expr
  | .matchCond column pattern =>
      .ok (.strContains (.col column) (.litStr pattern) true)
  | .and conditions => do
      match ← condFoldAnd conditions none with
      | some ex => .ok ex
      | none => .error (.other "and statement must have at least 2 conditions")
  | .or conditions => do
      match ← condFoldOr conditions none with
      | some ex => .ok ex
      | none => .error (.other "and statement must have at least 2 conditions")

/-- Accumulator loop of the standalone And evaluation. -/
def condFoldAnd : List Condition → Option Expr → RResult (Option Expr)
  | [], acc => .ok acc
  | cond :: rest, acc => do
      let ce ← cond.expr
      match acc with
      | none => condFoldAnd rest (some ce)
      | some ex => condFoldAnd rest (some (.and ex ce))

/-- Accumulator loop of the standalone Or evaluation. -/
def condFoldOr : List Condition → Option Expr → RResult (Option Expr)
  | [], acc => .ok acc
  | cond :: rest, acc => do
      let ce ← cond.expr
      match acc with
      | none => condFoldOr rest (some ce)
      | some ex => condFoldOr rest (some (.or ex ce))

end

end Conds

/-! ## Plan-side model (sources.rs, transforms.rs, exports.rs)

The polars LazyFrame is external; like Expr it is modelled as the
syntax of the plan the code builds, one constructor per builder call.
-/

/-- External polars Schema (sources.rs, struct Schema wrapping the
polars type); opaque to the code. -/
structure Schema where
  id : Nat
deriving Repr, DecidableEq

/-- External polars Selector. The code builds ByName selectors itself
(transforms.rs, Extract); selectors arriving from the parsed document
are opaque and modelled by an identifier. -/
inductive Selector where
  | byName (names : List String) (strict : Bool)
  | fromDocument (id : Nat)
deriving Repr, DecidableEq

/-- External polars UniqueKeepStrategy. -/
inductive UniqueKeepStrategy where
  | first
  | last
  | any
  | none
deriving Repr, DecidableEq

/-- External polars JoinType (the five variants the code maps to). -/
inductive PlJoinType where
  | inner
  | left
  | right
  | full
  | anti
deriving Repr, DecidableEq

/-- External polars UnionArgs (transforms.rs, Concat.args); opaque to
the code. -/
structure UnionArgs where
  id : Nat := 0
deriving Repr, DecidableEq

/-- A valid ASCII CSV separator represented as a byte (sources.rs,
struct Separator). -/
structure Separator where
  byte : Nat
deriving Repr, DecidableEq

/-- Conversion of a char into a separator byte (sources.rs, impl
TryFrom of char for Separator via u8::try_from); the error message is
the display of TryFromIntError. -/
def Separator.tryFrom (c : Char) : RResult Separator :=
  if c.toNat ≤ 255 then .ok ⟨c.toNat⟩
  else .error (.other "out of range integral type conversion attempted")

/-- One or more canonicalized paths produced by glob expansion
(utils.rs, struct CanonicalPaths). -/
structure CanonicalPaths where
  paths : List String
deriving Repr, DecidableEq

/-- A single canonicalized path (utils.rs, struct CanonicalPath). -/
structure CanonicalPath where
  path : String
deriving Repr, DecidableEq

/-- Load data from CSV (sources.rs, struct CsvSource). -/
structure CsvSource where
  path : CanonicalPaths
  separator : Option Separator
  hasHeader : Option Bool
  schema : Option Schema
deriving Repr, DecidableEq

/-- Load data from newline-delimited JSON (sources.rs, struct
JsonLineSource). -/
structure JsonLineSource where
  path : CanonicalPaths
  schema : Option Schema
deriving Repr, DecidableEq

/-- Load data from a JSON file (sources.rs, struct JsonSource). -/
structure JsonSource where
  path : CanonicalPath
  schema : Option Schema
deriving Repr, DecidableEq

/-- Import another configuration file as a data source (sources.rs,
struct ConfigSource). -/
structure ConfigSource where
  path : CanonicalPath
deriving Repr, DecidableEq

/-- Load data from parquet files (sources.rs, struct ParquetSource).
NOTE the paths field is a plain Arc of PlPath values in the source,
not CanonicalPaths: no canonicalization hook runs for it. -/
structure ParquetSource where
  paths : List String
  schema : Option Schema
deriving Repr, DecidableEq

/-- Experimental inline dataframe source (sources.rs, struct
InlineSource); the wrapped polars DataFrame is opaque to the code and
modelled by an identifier. -/
structure InlineSource where
  df : Nat
deriving Repr, DecidableEq

/-- Available sources (sources.rs, enum SourceItem). -/
inductive SourceItem where
  | csv (src : CsvSource)
  | jsonLine (src : JsonLineSource)
  | json (src : JsonSource)
  | config (src : ConfigSource)
  | parquet (src : ParquetSource)
  | inline (src : InlineSource)
deriving Repr, DecidableEq

/-- The join method of transforms.rs (enum JoinType), mapped to the
polars join type inside Join::transform. -/
inductive JoinType where
  | inner
  | left
  | right
  | full
  | anti
deriving Repr, DecidableEq

/-- The mapping of transforms.rs JoinType onto the polars JoinType
(the match inside Join::transform). -/
def JoinType.toPolars : JoinType → PlJoinType
  | .inner => .inner
  | .left => .left
  | .right => .right
  | .full => .full
  | .anti => .anti

/-- Which duplicate rows to keep (transforms.rs, enum DuplicateKeep). -/
inductive DuplicateKeep where
  | first
  | last
  | any
  | none
deriving Repr, DecidableEq

/-- Mapping onto the polars strategy (transforms.rs, impl From of
DuplicateKeep for UniqueKeepStrategy). -/
def DuplicateKeep.toStrategy : DuplicateKeep → UniqueKeepStrategy
  | .any => .any
  | .first => .first
  | .last => .last
  | .none => .none

/-- Sort one column ascending or descending (transforms.rs, struct
Sort; that name is a universe keyword in Lean, hence SortSpec). -/
structure SortSpec where
  column : String
  descending : Bool
deriving Repr, DecidableEq

/-- The concatenation method (transforms.rs, enum ConcatType). -/
inductive ConcatType where
  | vertical
  | horizontal
  | diagonal
deriving Repr, DecidableEq

/-- Image of the external polars LazyFrame builder API: one
constructor per builder call the embedded code performs. -/
inductive LazyFrame where
  /-- LazyCsvReader with the settings CsvSource::load applies. -/
  | scanCsv (paths : List String) (hasHeader : Bool) (separator : Option Nat)
      (truncateRaggedLines : Bool) (dtypeOverwrite : Option Schema)
  /-- LazyJsonLineReader with the settings JsonLineSource::load applies. -/
  | scanJsonLines (paths : List String) (schemaOverwrite : Option Schema)
  /-- Eager JsonReader of JsonSource::load followed by .lazy(). -/
  | readJson (path : String) (schema : Option Schema)
  /-- LazyFrame::scan_parquet_files of ParquetSource::load. -/
  | scanParquet (paths : List String) (schema : Option Schema)
  /-- The inlined DataFrame of InlineSource::load, made lazy. -/
  | inlineFrame (df : Nat)
  | select (lf : LazyFrame) (es : List Expr)
  | drop (lf : LazyFrame) (sel : Selector)
  | rename (lf : LazyFrame) (pairs : List (String × String)) (strict : Bool)
  | filter (lf : LazyFrame) (e : Expr)
  | unnest (lf : LazyFrame) (sel : Selector)
  | sortByExprs (lf : LazyFrame) (es : List Expr) (descending : List Bool)
  | unique (lf : LazyFrame) (subset : Option Selector) (keep : UniqueKeepStrategy)
  | join (left right : LazyFrame) (leftOn rightOn : List Expr) (how : PlJoinType)
      (coalesce : Bool)
  | withColumns (lf : LazyFrame) (es : List Expr)
  | explode (lf : LazyFrame) (sel : Selector)
  /-- The checkpoint of the Collect transform: lf.collect().lazy();
  materialization itself is executed by the external engine. -/
  | collected (lf : LazyFrame)
  | groupByAgg (lf : LazyFrame) (keys aggs : List Expr)
  | concatVertical (a b : LazyFrame) (args : UnionArgs)
  | concatHorizontal (a b : LazyFrame) (args : UnionArgs)
  | concatDiagonal (a b : LazyFrame) (args : UnionArgs)
deriving Repr

mutual

/-- A source bound to its transform sequence (sources.rs, struct
Loader; the source field is serde-flattened, which does not change the
in-memory shape). -/
inductive Loader where
  | mk (source : SourceItem) (transforms : List TransformItem)

/-- Available transformations (transforms.rs, enum TransformItem).
Wrapper structs with a single field are inlined into their variants;
Join and Concat are inlined because they recursively contain a
Loader. -/
inductive TransformItem where
  | select (chains : List ExpressionChain)
  | drop (sel : Selector)
  /-- Rename with the Map variant inlined; a BTreeMap iterates its
  pairs in ascending key order, so the pair list carries that order. -/
  | rename (pairs : List (String × String))
  | filter (chains : List ExpressionChain)
  | extract (matcher : Match) (filter : Bool)
  | unnest (sel : Selector)
  | sortBy (sorts : List SortSpec)
  | dropDuplicates (subset : Option Selector) (keep : DuplicateKeep)
  | join (right : Loader) (leftOn rightOn : List ExpressionChain) (how : JoinType)
  | set (chain : ExpressionChain)
  | explode (sel : Selector)
  | withColumns (chains : List ExpressionChain)
  | collect
  | groupBy (exprs agg : List ExpressionChain)
  | concat (loader : Loader) (how : ConcatType) (args : UnionArgs)

end

/-- Export to CSV (exports.rs, struct CsvExport). -/
structure CsvExport where
  folder : String
  name : String
  dateFormat : Option String
  sink : Option Bool
deriving Repr, DecidableEq

/-- Export to newline-delimited JSON (exports.rs, struct NdJsonExport). -/
structure NdJsonExport where
  folder : String
  name : String
  dateFormat : Option String
deriving Repr, DecidableEq

/-- Export the collected dataframe as one JSON document (exports.rs,
struct JsonExport). -/
structure JsonExport where
  folder : String
  name : String
  dateFormat : Option String
deriving Repr, DecidableEq

/-- Available exports (exports.rs, enum ExportItem). -/
inductive ExportItem where
  | csv (e : CsvExport)
  | ndJson (e : NdJsonExport)
  | json (e : JsonExport)
deriving Repr, DecidableEq

/-- Configuration document (config.rs, struct Config). -/
structure Config where
  source : Loader
  transforms : List TransformItem
  exports : List ExportItem

/-! ## Pure transform bodies (transforms.rs)

Every transform body except Join, Concat and Collect is a pure
function of the incoming plan; those three are handled in the stateful
load functions further below.
-/

/-- Select::transform. -/
def Select.transform (chains : List ExpressionChain) (lf : LazyFrame) : RResult LazyFrame := do
  .ok (.select lf (← chainExprs chains))

/-- Drop::transform. -/
def Drop.transform (sel : Selector) (lf : LazyFrame) : RResult LazyFrame :=
  .ok (.drop lf sel)

/-- Rename::transform, Map arm: lf.rename(keys, values, true). -/
def Rename.transform (pairs : List (String × String)) (lf : LazyFrame) : RResult LazyFrame :=
  .ok (.rename lf pairs true)

/-- The try_fold of Filter::transform: every chain becomes one filter
node over the accumulated plan, in document order. -/
def filtersFold : List ExpressionChain → LazyFrame → RResult LazyFrame
  | [], lf => .ok lf
  | c :: rest, lf => do
      filtersFold rest (.filter lf (← c.expr))

/-- Filter::transform. -/
def Filter.transform (chains : List ExpressionChain) (lf : LazyFrame) : RResult LazyFrame :=
  filtersFold chains lf

/-- Extract::transform: optionally filter on the matcher, then select
all columns plus the aliased capture groups, then unnest the alias. -/
def Extract.transform (matcher : Match) (filterFirst : Bool) (lf : LazyFrame) :
    RResult LazyFrame := do
  let lf ← if filterFirst then do
      .ok (LazyFrame.filter lf (← matcher.expr))
    else
      .ok lf
  let groupsAlias := "_" ++ matcher.column ++ "_groups"
  .ok (.unnest
    (.select lf
      [.col "*", .alias (.strExtractGroups (.col matcher.column) matcher.pattern) groupsAlias])
    (.byName [groupsAlias] true))

/-- Unnest::transform. -/
def Unnest.transform (sel : Selector) (lf : LazyFrame) : RResult LazyFrame :=
  .ok (.unnest lf sel)

/-- SortBy::transform: sort_by_exprs over the column expressions with
the per-column descending flags. -/
def SortBy.transform (sorts : List SortSpec) (lf : LazyFrame) : RResult LazyFrame :=
  .ok (.sortByExprs lf (sorts.map (fun s => Expr.col s.column)) (sorts.map (·.descending)))

/-- DropDuplicates::transform. -/
def DropDuplicates.transform (subset : Option Selector) (keep : DuplicateKeep)
    (lf : LazyFrame) : RResult LazyFrame :=
  .ok (.unique lf subset keep.toStrategy)

/-- The pure tail of Join::transform once the right-hand plan is
loaded: collect both join key lists and build the join node with
coalescing enabled. -/
def Join.build (lf1 lf2 : LazyFrame) (leftOn rightOn : List ExpressionChain)
    (how : JoinType) : RResult LazyFrame := do
  let l ← chainExprs leftOn
  let r ← chainExprs rightOn
  .ok (.join lf1 lf2 l r how.toPolars true)

/-- Set::transform: select of all columns plus the computed one. -/
def Set.transform (chain : ExpressionChain) (lf : LazyFrame) : RResult LazyFrame := do
  .ok (.select lf [.col "*", ← chain.expr])

/-- WithColumns::transform. -/
def WithColumns.transform (chains : List ExpressionChain) (lf : LazyFrame) :
    RResult LazyFrame := do
  .ok (.withColumns lf (← chainExprs chains))

/-- Explode::transform. -/
def Explode.transform (sel : Selector) (lf : LazyFrame) : RResult LazyFrame :=
  .ok (.explode lf sel)

/-- GroupBy::transform. -/
def GroupBy.transform (exprs agg : List ExpressionChain) (lf : LazyFrame) :
    RResult LazyFrame := do
  let keys ← chainExprs exprs
  let aggs ← chainExprs agg
  .ok (.groupByAgg lf keys aggs)

/-- The pure tail of Concat::transform once the second plan is
loaded. -/
def Concat.build (lf1 lf2 : LazyFrame) (how : ConcatType) (args : UnionArgs) : LazyFrame :=
  match how with
  | .diagonal => .concatDiagonal lf1 lf2 args
  | .horizontal => .concatHorizontal lf1 lf2 args
  | .vertical => .concatVertical lf1 lf2 args

/-! ## Raw configuration documents

Deserialization is performed by serde and toml (external), but the
validation hooks it calls (the TryFrom conversions for CanonicalPath,
CanonicalPaths and Separator) are source code and depend on the
current directory. A raw document mirrors the parsed document with the
path-bearing fields still unvalidated; sub-trees whose deserialization
reads no state (expressions, selectors, exports) are carried already
validated.
-/

/-- Raw CsvSource before the TryFrom hooks run. -/
structure RawCsvSource where
  path : String
  separator : Option Char
  hasHeader : Option Bool
  schema : Option Schema
deriving Repr, DecidableEq

/-- Raw JsonLineSource. -/
structure RawJsonLineSource where
  path : String
  schema : Option Schema
deriving Repr, DecidableEq

/-- Raw JsonSource. -/
structure RawJsonSource where
  path : String
  schema : Option Schema
deriving Repr, DecidableEq

/-- Raw ConfigSource. -/
structure RawConfigSource where
  path : String
deriving Repr, DecidableEq

/-- Raw ParquetSource: its paths field has no validation hook in the
source, so raw and validated forms coincide. -/
structure RawParquetSource where
  paths : List String
  schema : Option Schema
deriving Repr, DecidableEq

/-- Raw SourceItem. -/
inductive RawSourceItem where
  | csv (src : RawCsvSource)
  | jsonLine (src : RawJsonLineSource)
  | json (src : RawJsonSource)
  | config (src : RawConfigSource)
  | parquet (src : RawParquetSource)
  | inline (src : InlineSource)
deriving Repr, DecidableEq

mutual

/-- Raw Loader. -/
inductive RawLoader where
  | mk (source : RawSourceItem) (transforms : List RawTransformItem)

/-- Raw TransformItem: identical to TransformItem except that Join and
Concat recursively contain a raw Loader. -/
inductive RawTransformItem where
  | select (chains : List ExpressionChain)
  | drop (sel : Selector)
  | rename (pairs : List (String × String))
  | filter (chains : List ExpressionChain)
  | extract (matcher : Match) (filter : Bool)
  | unnest (sel : Selector)
  | sortBy (sorts : List SortSpec)
  | dropDuplicates (subset : Option Selector) (keep : DuplicateKeep)
  | join (right : RawLoader) (leftOn rightOn : List ExpressionChain) (how : JoinType)
  | set (chain : ExpressionChain)
  | explode (sel : Selector)
  | withColumns (chains : List ExpressionChain)
  | collect
  | groupBy (exprs agg : List ExpressionChain)
  | concat (loader : RawLoader) (how : ConcatType) (args : UnionArgs)

end

/-- Raw configuration document as read from disk, before the
validation hooks run. -/
structure RawConfig where
  source : RawLoader
  transforms : List RawTransformItem
  exports : List ExportItem

/-! ## Process state and the effect monad

The code mutates one process-wide resource (the current working
directory) and performs file-system effects. Both are threaded through
an explicit state: the state carries the current directory, the set of
existing files, the raw configuration documents on disk, the set of
paths whose writes fail (disk errors are environment-determined), the
wall clock, and a trace of the external side effects performed so far.
-/

/-- External side effects the code performs, in order. -/
inductive Event where
  | setCurrentDir (path : String)
  | readConfigFile (path : String)
  | openJsonFile (path : String)
  | collectPlan
  | createDir (path : String)
  | fileWritten (path : String)
deriving Repr, DecidableEq

/-- The modelled process and file-system state. -/
structure Fs where
  /-- The current working directory (std::env). -/
  cwd : String
  /-- Absolute paths of the files that exist. -/
  entries : List String
  /-- Raw configuration documents on disk, keyed by absolute path. -/
  files : List (String × RawConfig)
  /-- Paths whose writes fail (environment-determined disk errors). -/
  writeFailures : List String
  /-- The wall clock value (chrono::Local::now), opaque to the code. -/
  now : String
  /-- Trace of the external side effects performed so far. -/
  trace : List Event

/-- The effect monad of the embedded code: anyhow::Result with the
process state threaded through (state changes before a failure
persist, as they do for the real process). -/
def M (α : Type) : Type := Fs → Except Error α × Fs

/-- Monadic return. -/
def M.pureM (a : α) : M α := fun s => (.ok a, s)

/-- Monadic bind: the question-mark operator of Rust. -/
def M.bindM (x : M α) (f : α → M β) : M β := fun s =>
  match x s with
  | (.ok a, s') => f a s'
  | (.error e, s') => (.error e, s')

instance : Monad M where
  pure := M.pureM
  bind := M.bindM

/-- Raise an error (return Err). -/
def M.throwErr (e : Error) : M α := fun s => (.error e, s)

/-- Lift a pure fallible computation into the effect monad. -/
def liftR (r : RResult α) : M α := fun s => (r, s)

/-- Append one event to the trace. -/
def logEvent (e : Event) : M Unit := fun s =>
  (.ok (), { s with trace := s.trace ++ [e] })

/-- Resolve a path against a base directory: absolute paths stand,
relative paths are joined to the base. -/
def resolve (cwd p : String) : String :=
  if p.startsWith "/" then p else cwd ++ "/" ++ p

/-- The parent directory of a path (Path::parent). -/
def parentDir (p : String) : String :=
  String.intercalate "/" (p.splitOn "/").dropLast

/-- Models std::fs::canonicalize at the granularity the code relies
on: resolve the path against the current directory and fail when the
target does not exist. Symlink and dot-segment normalization are out
of scope, so a resolved absolute path is already canonical. -/
def canonicalize (p : String) : M String := fun s =>
  let abs := resolve s.cwd p
  if s.entries.contains abs then (.ok abs, s)
  else (.error (.other ("No such file or directory: " ++ abs)), s)

/-- Update the current directory, tracing the effect
(std::env::set_current_dir; directories are not removed during a run,
so the call is modelled total). -/
def setCwdState (s : Fs) (p : String) : Fs :=
  { s with cwd := p, trace := s.trace ++ [.setCurrentDir p] }

/-- Scoped current-directory switch (utils.rs, with_current_dir): save
the current directory, switch to the given one, run the body, and
restore the saved directory on the Ok path and on the Err path
alike. -/
def withCurrentDir (path : String) (func : M α) : M α := fun s =>
  let oldCd := s.cwd
  match func (setCwdState s path) with
  | (.ok t, s') => (.ok t, setCwdState s' oldCd)
  | (.error e, s') => (.error e, setCwdState s' oldCd)

/-- Deserialization hook of CanonicalPaths (utils.rs, impl TryFrom of
PathBuf for CanonicalPaths): the pattern is handed to the external
glob crate and every match is canonicalized. The glob crate walks the
real file system, so each match exists and canonicalizes successfully;
a pattern matching nothing yields an empty list and NO error.
Wildcard expansion is out of scope: the model matches a pattern
literally, so it matches exactly the existing path it resolves to. -/
def CanonicalPaths.tryFrom (pattern : String) : M CanonicalPaths := fun s =>
  (.ok ⟨s.entries.filter (fun e => e == resolve s.cwd pattern)⟩, s)

/-- Deserialization hook of CanonicalPath (utils.rs, impl TryFrom of
PathBuf for CanonicalPath): plain canonicalization, failing when the
path does not exist. -/
def CanonicalPath.tryFrom (p : String) : M CanonicalPath := do
  pure ⟨← canonicalize p⟩

/-- Read a raw configuration document (config.rs from_path reads the
file with read_to_string; the toml parse of the obtained string
happens later, inside the directory switch). -/
def readConfigDoc (canonicalPath : String) : M RawConfig := fun s =>
  match s.files.lookup canonicalPath with
  | some raw =>
      (.ok raw, { s with trace := s.trace ++ [.readConfigFile canonicalPath] })
  | none => (.error (.other ("could not read file: " ++ canonicalPath)), s)

/-! ## Deserialization (the serde validation hooks) -/

/-- Deserialize one source variant, running the TryFrom hooks of its
path-bearing fields against the current directory. -/
def RawSourceItem.deserialize : RawSourceItem → M SourceItem
  | .csv raw => do
      let path ← CanonicalPaths.tryFrom raw.path
      let separator ← match raw.separator with
        | some c => do pure (some (← liftR (Separator.tryFrom c)))
        | none => pure none
      pure (.csv ⟨path, separator, raw.hasHeader, raw.schema⟩)
  | .jsonLine raw => do
      let path ← CanonicalPaths.tryFrom raw.path
      pure (.jsonLine ⟨path, raw.schema⟩)
  | .json raw => do
      let path ← CanonicalPath.tryFrom raw.path
      pure (.json ⟨path, raw.schema⟩)
  | .config raw => do
      let path ← CanonicalPath.tryFrom raw.path
      pure (.config ⟨path⟩)
  | .parquet raw =>
      -- No validation hook: the raw paths pass through unchecked.
      pure (.parquet ⟨raw.paths, raw.schema⟩)
  | .inline src => pure (.inline src)

mutual

/-- Deserialize a raw loader. -/
def RawLoader.deserialize : RawLoader → M Loader
  | .mk source transforms => do
      let src ← source.deserialize
      let tfs ← rawTransformsDeserialize transforms
      pure (.mk src tfs)

/-- Deserialize a raw transform list in document order. -/
def rawTransformsDeserialize : List RawTransformItem → M (List TransformItem)
  | [] => pure []
  | t :: rest => do
      let t' ← t.deserialize
      let rest' ← rawTransformsDeserialize rest
      pure (t' :: rest')

/-- Deserialize one raw transform; only Join and Concat contain
state-dependent fields (their nested loader). -/
def RawTransformItem.deserialize : RawTransformItem → M TransformItem
  | .select chains => pure (.select chains)
  | .drop sel => pure (.drop sel)
  | .rename pairs => pure (.rename pairs)
  | .filter chains => pure (.filter chains)
  | .extract matcher filterFirst => pure (.extract matcher filterFirst)
  | .unnest sel => pure (.unnest sel)
  | .sortBy sorts => pure (.sortBy sorts)
  | .dropDuplicates subset keep => pure (.dropDuplicates subset keep)
  | .join right leftOn rightOn how => do
      let right' ← right.deserialize
      pure (.join right' leftOn rightOn how)
  | .set chain => pure (.set chain)
  | .explode sel => pure (.explode sel)
  | .withColumns chains => pure (.withColumns chains)
  | .collect => pure .collect
  | .groupBy exprs agg => pure (.groupBy exprs agg)
  | .concat loader how args => do
      let loader' ← loader.deserialize
      pure (.concat loader' how args)

end

/-- Deserialize a whole raw document (toml::from_str of the Config
struct): source loader, then document transforms, then exports. -/
def RawConfig.deserialize (raw : RawConfig) : M Config := do
  let source ← raw.source.deserialize
  let transforms ← rawTransformsDeserialize raw.transforms
  pure ⟨source, transforms, raw.exports⟩

/-- Load a configuration from a path and hand it to a continuation
(config.rs, Config::from_path): canonicalize the path, read the file,
then parse and run the continuation with the current directory
switched to the parent directory of the canonical path. -/
def Config.fromPath (path : String) (func : Config → M R) : M R := do
  let canonicalPath ← canonicalize path
  let file ← readConfigDoc canonicalPath
  withCurrentDir (parentDir canonicalPath) (do
    let config ← file.deserialize
    func config)

/-! ## Loading (sources.rs and transforms.rs, the stateful parts)

The load functions are parameterized by the continuation used for
nested Config sources; the knot is tied below with a fuel argument
that bounds the nesting depth of configuration files read from disk
(the Rust code has no such bound and would recurse forever on a
self-referencing document). -/

/-- CsvSource::load: a lazy CSV scan with the configured settings. -/
def CsvSource.load (src : CsvSource) : M LazyFrame :=
  pure (.scanCsv src.path.paths (src.hasHeader.getD true) (src.separator.map (·.byte)) true
    src.schema)

/-- JsonLineSource::load. -/
def JsonLineSource.load (src : JsonLineSource) : M LazyFrame :=
  pure (.scanJsonLines src.path.paths src.schema)

/-- JsonSource::load: eagerly opens the file (failing when it is
gone), reads it into a dataframe and makes the result lazy. -/
def JsonSource.load (src : JsonSource) : M LazyFrame := fun s =>
  if s.entries.contains src.path.path then
    (.ok (.readJson src.path.path src.schema),
      { s with trace := s.trace ++ [.openJsonFile src.path.path] })
  else
    (.error (.other ("No such file or directory: " ++ src.path.path)), s)

/-- ParquetSource::load. -/
def ParquetSource.load (src : ParquetSource) : M LazyFrame :=
  pure (.scanParquet src.paths src.schema)

/-- InlineSource::load. -/
def InlineSource.load (src : InlineSource) : M LazyFrame :=
  pure (.inlineFrame src.df)

mutual

/-- SourceItem::load, with the nested-config continuation k. -/
def SourceItem.loadWith (k : ConfigSource → M LazyFrame) : SourceItem → M LazyFrame
  | .csv src => src.load
  | .jsonLine src => src.load
  | .json src => src.load
  | .config src => k src
  | .parquet src => src.load
  | .inline src => src.load

/-- Loader::load: the plan of the source folded with the loader-local
transforms in document order. -/
def Loader.loadWith (k : ConfigSource → M LazyFrame) : Loader → M LazyFrame
  | .mk source transforms => do
      let lf ← source.loadWith k
      transformsFoldWith k transforms lf

/-- The transform fold shared by Loader::load and Config::load: each
transform receives the accumulated plan. -/
def transformsFoldWith (k : ConfigSource → M LazyFrame) :
    List TransformItem → LazyFrame → M LazyFrame
  | [], lf => pure lf
  | t :: rest, lf => do
      transformsFoldWith k rest (← t.transformWith k lf)

/-- TransformItem::transform: dispatch to the transform bodies; Join
and Concat first load their right-hand loader, Collect materializes. -/
def TransformItem.transformWith (k : ConfigSource → M LazyFrame) :
    TransformItem → LazyFrame → M LazyFrame
  | .select chains, lf => liftR (Select.transform chains lf)
  | .drop sel, lf => liftR (Drop.transform sel lf)
  | .rename pairs, lf => liftR (Rename.transform pairs lf)
  | .filter chains, lf => liftR (Filter.transform chains lf)
  | .extract matcher filterFirst, lf => liftR (Extract.transform matcher filterFirst lf)
  | .unnest sel, lf => liftR (Unnest.transform sel lf)
  | .sortBy sorts, lf => liftR (SortBy.transform sorts lf)
  | .dropDuplicates subset keep, lf => liftR (DropDuplicates.transform subset keep lf)
  | .join right leftOn rightOn how, lf => do
      let lf2 ← right.loadWith k
      liftR (Join.build lf lf2 leftOn rightOn how)
  | .set chain, lf => liftR (Set.transform chain lf)
  | .explode sel, lf => liftR (Explode.transform sel lf)
  | .withColumns chains, lf => liftR (WithColumns.transform chains lf)
  | .collect, lf => do
      logEvent .collectPlan
      pure (.collected lf)
  | .groupBy exprs agg, lf => liftR (GroupBy.transform exprs agg lf)
  | .concat loader how args, lf => do
      let lf2 ← loader.loadWith k
      pure (Concat.build lf lf2 how args)

end

/-- Config::load: the source loader followed by the document-level
transform fold. -/
def Config.loadWith (k : ConfigSource → M LazyFrame) (cfg : Config) : M LazyFrame := do
  let lf ← cfg.source.loadWith k
  transformsFoldWith k cfg.transforms lf

/-- ConfigSource::load with a fuel bound on nesting depth:
Config::from_path of the stored path with Config::load as the
continuation. -/
def loadConfigFuel : Nat → ConfigSource → M LazyFrame
  | 0, _ => M.throwErr (.other "nested configuration load depth exceeded the model fuel")
  | fuel + 1, cs =>
      Config.fromPath cs.path.path (fun config => Config.loadWith (loadConfigFuel fuel) config)

/-- SourceItem::load at a given fuel. -/
def SourceItem.load (fuel : Nat) : SourceItem → M LazyFrame :=
  SourceItem.loadWith (loadConfigFuel fuel)

/-- Loader::load at a given fuel. -/
def Loader.load (fuel : Nat) : Loader → M LazyFrame :=
  Loader.loadWith (loadConfigFuel fuel)

/-- TransformItem::transform at a given fuel. -/
def TransformItem.transform (fuel : Nat) : TransformItem → LazyFrame → M LazyFrame :=
  TransformItem.transformWith (loadConfigFuel fuel)

/-- The transform fold at a given fuel. -/
def transformsFold (fuel : Nat) : List TransformItem → LazyFrame → M LazyFrame :=
  transformsFoldWith (loadConfigFuel fuel)

/-- Config::load at a given fuel. -/
def Config.load (fuel : Nat) (cfg : Config) : M LazyFrame :=
  Config.loadWith (loadConfigFuel fuel) cfg

/-- ConfigSource::load at a given fuel. -/
def ConfigSource.load (fuel : Nat) (cs : ConfigSource) : M LazyFrame :=
  loadConfigFuel fuel cs

/-! ## Exports (exports.rs) -/

/-- Models std::fs::create_dir_all: traced, total (directory creation
failures are out of scope; write failures model disk errors). -/
def createDirAll (folder : String) : M Unit :=
  logEvent (.createDir folder)

/-- Render the current wall clock with a chrono format string; the
external formatting is modelled as clock value next to format
string. -/
def formatNow (fmt : String) : M String := fun s => (.ok (s.now ++ fmt), s)

/-- Write a file at the given path: fails when the environment marks
the path as failing, otherwise traces the write (covers both the lazy
sink and the eager writer of the export bodies). -/
def writeFileAt (path : String) : M Unit := fun s =>
  if s.writeFailures.contains path then
    (.error (.other ("could not write file: " ++ path)), s)
  else
    (.ok (), { s with trace := s.trace ++ [.fileWritten path] })

/-- Build the output filename: name, then the optional rendered
timestamp, then the extension. -/
def exportFilename (name : String) (dateFormat : Option String) (ext : String) :
    M String := do
  let stamp ← match dateFormat with
    | some fmt => formatNow fmt
    | none => pure ""
  pure (name ++ stamp ++ ext)

/-- CsvExport::export: create the folder, build the filename, then
either sink lazily or collect eagerly and write. -/
def CsvExport.export (ex : CsvExport) (lf : LazyFrame) : M Unit := do
  let _ := lf
  createDirAll ex.folder
  let filename ← exportFilename ex.name ex.dateFormat ".csv"
  if ex.sink.getD true then
    writeFileAt (ex.folder ++ "/" ++ filename)
  else do
    -- lf.collect() materializes before the eager CsvWriter runs.
    logEvent .collectPlan
    writeFileAt (ex.folder ++ "/" ++ filename)

/-- NdJsonExport::export. -/
def NdJsonExport.export (ex : NdJsonExport) (lf : LazyFrame) : M Unit := do
  let _ := lf
  createDirAll ex.folder
  let filename ← exportFilename ex.name ex.dateFormat ".jsonl"
  writeFileAt (ex.folder ++ "/" ++ filename)

/-- JsonExport::export: collects the whole result, then writes one
JSON document. -/
def JsonExport.export (ex : JsonExport) (lf : LazyFrame) : M Unit := do
  let _ := lf
  createDirAll ex.folder
  let filename ← exportFilename ex.name ex.dateFormat ".json"
  logEvent .collectPlan
  writeFileAt (ex.folder ++ "/" ++ filename)

/-- ExportItem::export dispatch. -/
def ExportItem.export : ExportItem → LazyFrame → M Unit
  | .csv ex, lf => ex.export lf
  | .ndJson ex, lf => ex.export lf
  | .json ex, lf => ex.export lf

/-- The export loop of Config::run: each export receives the same
compiled plan (the clone of a plan value is the value itself); the
question-mark operator aborts the loop at the first failing export. -/
def exportsRun : List ExportItem → LazyFrame → M Unit
  | [], _ => pure ()
  | e :: rest, lf => do
      e.export lf
      exportsRun rest lf

/-- Config::run: fail with NoExports before any other work when the
export list is empty; otherwise load once and run every export on a
clone of the same plan. -/
def Config.run (fuel : Nat) (cfg : Config) : M Unit := do
  if cfg.exports.isEmpty then
    M.throwErr .noExports
  else do
    let lf ← Config.load fuel cfg
    exportsRun cfg.exports lf

/-! ## Interface semantics of the filter node -/

/-- The source of a loader (Loader is an inductive because it sits in
a mutual block, so the field is accessed by this projection). -/
def Loader.source : Loader → SourceItem
  | .mk s _ => s

/-- The transforms of a loader. -/
def Loader.transforms : Loader → List TransformItem
  | .mk _ t => t

/-- Row-level interface contract of the filter node of the external
engine: a filter keeps exactly the rows on which its predicate holds.
Rows and the engine evaluation of a predicate on a row are abstract
parameters; the rows produced by any non-filter plan are given by the
base assignment. -/
def planRows {Row : Type} (sem : Row → Expr → Bool) (base : LazyFrame → List Row) :
    LazyFrame → List Row
  | .filter lf e => (planRows sem base lf).filter (fun r => sem r e)
  | lf => base lf

/-! ## General lemmas about the embedded operations -/

@[simp]
theorem exceptBind_ok (a : α) (f : α → Except ε β) : (Except.ok a >>= f) = f a := rfl

@[simp]
theorem exceptBind_error (e : ε) (f : α → Except ε β) :
    ((Except.error e : Except ε α) >>= f) = .error e := rfl

@[simp]
theorem exceptPure (a : α) : (pure a : Except ε α) = .ok a := rfl

@[simp]
theorem M.bind_def (x : M α) (f : α → M β) : x >>= f = M.bindM x f := rfl

@[simp]
theorem M.pure_def (a : α) : (pure a : M α) = M.pureM a := rfl

theorem M.bindM_apply (x : M α) (f : α → M β) (s : Fs) :
    M.bindM x f s =
      match x s with
      | (.ok a, s') => f a s'
      | (.error e, s') => (.error e, s') := rfl

/-- The canonicalize model reads the state and never changes it. -/
theorem canonicalize_snd (p : String) (s : Fs) : (canonicalize p s).2 = s := by
  simp only [canonicalize]
  split <;> rfl

/-- Reading a document never changes the current directory. -/
theorem readConfigDoc_cwd (p : String) (s : Fs) : ((readConfigDoc p) s).2.cwd = s.cwd := by
  simp only [readConfigDoc]
  cases s.files.lookup p <;> rfl

/-- The directory switch sets the requested directory. -/
theorem setCwdState_cwd (s : Fs) (p : String) : (setCwdState s p).cwd = p := rfl

/-- Characterization of the scoped directory switch: the body runs on
the state with the directory switched, and afterwards the directory of
the entry state is restored, on the Ok path and the Err path alike. -/
theorem withCurrentDir_run (p : String) (body : M α) (s : Fs) :
    withCurrentDir p body s =
      ((body (setCwdState s p)).1, setCwdState (body (setCwdState s p)).2 s.cwd) := by
  simp only [withCurrentDir]
  rcases body (setCwdState s p) with ⟨r, s'⟩
  cases r <;> rfl

/-- The scoped directory switch always restores the entry directory. -/
theorem withCurrentDir_cwd (p : String) (body : M α) (s : Fs) :
    ((withCurrentDir p body) s).2.cwd = s.cwd := by
  rw [withCurrentDir_run]
  rfl

/-- Preservation of the current directory composes through bind. -/
theorem M.bindM_cwd (x : M α) (f : α → M β)
    (hx : ∀ s, (x s).2.cwd = s.cwd)
    (hf : ∀ a s, ((f a) s).2.cwd = s.cwd) :
    ∀ s, ((M.bindM x f) s).2.cwd = s.cwd := by
  intro s
  simp only [M.bindM_apply]
  rcases hx2 : x s with ⟨r, s'⟩
  have hs' : s'.cwd = s.cwd := by
    have h := hx s
    rw [hx2] at h
    exact h
  cases r with
  | error e => exact hs'
  | ok a => exact (hf a s').trans hs'

/-- Bind respects pointwise equality of continuations. -/
theorem M.bindM_congr (x : M α) (f g : α → M β) (h : ∀ a, f a = g a) :
    M.bindM x f = M.bindM x g := by
  funext s
  simp only [M.bindM_apply]
  rcases x s with ⟨r, s'⟩
  cases r with
  | error e => rfl
  | ok a =>
    show f a s' = g a s'
    rw [h a]

theorem M.bind_assoc (x : M α) (f : α → M β) (g : β → M γ) :
    x >>= f >>= g = x >>= fun a => f a >>= g := by
  show M.bindM (M.bindM x f) g = M.bindM x fun a => M.bindM (f a) g
  funext s
  simp only [M.bindM]
  rcases x s with ⟨r, s'⟩
  cases r <;> simp

/-- The try_fold of ExpressionChain.expr is the monadic left fold of
operation application. -/
theorem opsFold_eq_foldlM (ops : List OpItem) (e : Expr) :
    opsFold ops e = ops.foldlM (fun acc op => OpItem.apply op acc) e := by
  induction ops generalizing e with
  | nil => rfl
  | cons op rest ih =>
    simp only [opsFold, List.foldlM]
    cases OpItem.apply op e <;> simp [ih, Except.bind]

/-- The accumulator loop of the expression-level And never loses a
seeded accumulator: from a seed it is the monadic left fold with the
logical AND. -/
theorem itemFoldAnd_some (l : List ExpressionItem) (a : Expr) :
    itemFoldAnd l (some a) =
      Except.map some (l.foldlM (fun acc c => do pure (Expr.and acc (← c.expr))) a) := by
  induction l generalizing a with
  | nil => rfl
  | cons c rest ih =>
    simp only [itemFoldAnd, List.foldlM]
    cases c.expr <;> simp [ih, Except.bind, Except.map]

/-- Or-side analogue of itemFoldAnd_some. -/
theorem itemFoldOr_some (l : List ExpressionItem) (a : Expr) :
    itemFoldOr l (some a) =
      Except.map some (l.foldlM (fun acc c => do pure (Expr.or acc (← c.expr))) a) := by
  induction l generalizing a with
  | nil => rfl
  | cons c rest ih =>
    simp only [itemFoldOr, List.foldlM]
    cases c.expr <;> simp [ih, Except.bind, Except.map]

/-- Evaluation of a non-empty expression-level And node: the first
operand seeds the accumulator and the rest fold with the logical
AND, left to right. -/
theorem itemAnd_expr_fold (x : ExpressionItem) (rest : List ExpressionItem) :
    (ExpressionItem.and (x :: rest)).expr =
      x.expr >>= fun e0 =>
        rest.foldlM (fun acc c => do pure (Expr.and acc (← c.expr))) e0 := by
  simp only [ExpressionItem.expr, itemFoldAnd]
  cases hx : x.expr with
  | error e => rfl
  | ok e0 =>
    simp only [exceptBind_ok, itemFoldAnd_some]
    cases hf : rest.foldlM (fun acc c => do pure (Expr.and acc (← c.expr))) e0 <;> simp [Except.map]

/-- Or-side analogue of itemAnd_expr_fold. -/
theorem itemOr_expr_fold (x : ExpressionItem) (rest : List ExpressionItem) :
    (ExpressionItem.or (x :: rest)).expr =
      x.expr >>= fun e0 =>
        rest.foldlM (fun acc c => do pure (Expr.or acc (← c.expr))) e0 := by
  simp only [ExpressionItem.expr, itemFoldOr]
  cases hx : x.expr with
  | error e => rfl
  | ok e0 =>
    simp only [exceptBind_ok, itemFoldOr_some]
    cases hf : rest.foldlM (fun acc c => do pure (Expr.or acc (← c.expr))) e0 <;> simp [Except.map]

/-- Condition-level analogue of itemFoldAnd_some. -/
theorem condFoldAnd_some (l : List Conds.Condition) (a : Expr) :
    Conds.condFoldAnd l (some a) =
      Except.map some (l.foldlM (fun acc c => do pure (Expr.and acc (← c.expr))) a) := by
  induction l generalizing a with
  | nil => rfl
  | cons c rest ih =>
    simp only [Conds.condFoldAnd, List.foldlM]
    cases c.expr <;> simp [ih, Except.bind, Except.map]

/-- Condition-level analogue of itemFoldOr_some. -/
theorem condFoldOr_some (l : List Conds.Condition) (a : Expr) :
    Conds.condFoldOr l (some a) =
      Except.map some (l.foldlM (fun acc c => do pure (Expr.or acc (← c.expr))) a) := by
  induction l generalizing a with
  | nil => rfl
  | cons c rest ih =>
    simp only [Conds.condFoldOr, List.foldlM]
    cases c.expr <;> simp [ih, Except.bind, Except.map]

/-- Evaluation of a non-empty condition-level And node. -/
theorem condAnd_expr_fold (x : Conds.Condition) (rest : List Conds.Condition) :
    (Conds.Condition.and (x :: rest)).expr =
      x.expr >>= fun e0 =>
        rest.foldlM (fun acc c => do pure (Expr.and acc (← c.expr))) e0 := by
  simp only [Conds.Condition.expr, Conds.condFoldAnd]
  cases hx : x.expr with
  | error e => rfl
  | ok e0 =>
    simp only [exceptBind_ok, condFoldAnd_some]
    cases hf : rest.foldlM (fun acc c => do pure (Expr.and acc (← c.expr))) e0 <;> simp [Except.map]

/-- Evaluation of a non-empty condition-level Or node. -/
theorem condOr_expr_fold (x : Conds.Condition) (rest : List Conds.Condition) :
    (Conds.Condition.or (x :: rest)).expr =
      x.expr >>= fun e0 =>
        rest.foldlM (fun acc c => do pure (Expr.or acc (← c.expr))) e0 := by
  simp only [Conds.Condition.expr, Conds.condFoldOr]
  cases hx : x.expr with
  | error e => rfl
  | ok e0 =>
    simp only [exceptBind_ok, condFoldOr_some]
    cases hf : rest.foldlM (fun acc c => do pure (Expr.or acc (← c.expr))) e0 <;> simp [Except.map]

/-! ## Claim theorems -/

/-- Claim C1 (code_bug evidence). The claim states that the
operation-chain item Or folds the incoming expression with each chain
via logical OR. The code (ops.rs, impl Op for Or, lines 140 to 148)
folds with Expr::and instead, contradicting the doc comments of both
the Or struct and the OpItem::Or variant; the And operation folds with
AND as specified. This theorem evaluates both operations at the
failing input: Or over the single chain lit x applied to col a yields
the logical AND of the two, not the OR. -/
theorem c1_or_op_folds_with_and :
    OpItem.apply (.or [ExpressionChain.mk (.lit "x") []]) (.col "a") =
        .ok (.and (.col "a") (.litStr "x")) ∧
      OpItem.apply (.and [ExpressionChain.mk (.lit "x") []]) (.col "a") =
        .ok (.and (.col "a") (.litStr "x")) ∧
      ¬ OpItem.apply (.or [ExpressionChain.mk (.lit "x") []]) (.col "a") =
        .ok (.or (.col "a") (.litStr "x")) := by
  refine ⟨rfl, rfl, ?_⟩
  intro h
  simp only [OpItem.apply, chainsFoldAnd, ExpressionChain.expr, ExpressionItem.expr,
    opsFold, Except.bind] at h
  exact absurd (Except.ok.inj h) (by simp)

/-- Claim C2. For every operand list passed to the validating
constructor of a logical AND or OR node, at the expression-AST level
(expressions.rs) and at the standalone condition level
(conditions.rs) alike: construction fails with the arity error exactly
when the list has fewer than 2 operands; with 2 or more operands
construction succeeds with the node holding the operand list, and the
node evaluates to the left fold of the logical operator over the
operands in input order, the first operand seeding the accumulator. -/
theorem c2_and_or_arity_and_fold :
    (∀ l : List ExpressionItem,
        (∃ msg, Expressions.And.tryFrom l = .error (.other msg)) ↔ l.length < 2) ∧
    (∀ l : List ExpressionItem,
        (∃ msg, Expressions.Or.tryFrom l = .error (.other msg)) ↔ l.length < 2) ∧
    (∀ l : List Conds.Condition,
        (∃ msg, Conds.And.tryFrom l = .error (.other msg)) ↔ l.length < 2) ∧
    (∀ l : List Conds.Condition,
        (∃ msg, Conds.Or.tryFrom l = .error (.other msg)) ↔ l.length < 2) ∧
    (∀ (x y : ExpressionItem) (rest : List ExpressionItem),
        Expressions.And.tryFrom (x :: y :: rest) = .ok (.and (x :: y :: rest)) ∧
        (ExpressionItem.and (x :: y :: rest)).expr =
          x.expr >>= fun e0 =>
            (y :: rest).foldlM (fun acc c => do pure (Expr.and acc (← c.expr))) e0) ∧
    (∀ (x y : ExpressionItem) (rest : List ExpressionItem),
        Expressions.Or.tryFrom (x :: y :: rest) = .ok (.or (x :: y :: rest)) ∧
        (ExpressionItem.or (x :: y :: rest)).expr =
          x.expr >>= fun e0 =>
            (y :: rest).foldlM (fun acc c => do pure (Expr.or acc (← c.expr))) e0) ∧
    (∀ (x y : Conds.Condition) (rest : List Conds.Condition),
        Conds.And.tryFrom (x :: y :: rest) = .ok (.and (x :: y :: rest)) ∧
        (Conds.Condition.and (x :: y :: rest)).expr =
          x.expr >>= fun e0 =>
            (y :: rest).foldlM (fun acc c => do pure (Expr.and acc (← c.expr))) e0) ∧
    (∀ (x y : Conds.Condition) (rest : List Conds.Condition),
        Conds.Or.tryFrom (x :: y :: rest) = .ok (.or (x :: y :: rest)) ∧
        (Conds.Condition.or (x :: y :: rest)).expr =
          x.expr >>= fun e0 =>
            (y :: rest).foldlM (fun acc c => do pure (Expr.or acc (← c.expr))) e0) := by
  refine ⟨?_, ?_, ?_, ?_, ?_, ?_, ?_, ?_⟩
  · intro l
    constructor
    · rintro ⟨msg, h⟩
      by_contra hlt
      simp [Expressions.And.tryFrom, if_neg hlt] at h
    · intro h
      exact ⟨"and statement must have at least 2 conditions",
        by simp [Expressions.And.tryFrom, if_pos h]⟩
  · intro l
    constructor
    · rintro ⟨msg, h⟩
      by_contra hlt
      simp [Expressions.Or.tryFrom, if_neg hlt] at h
    · intro h
      exact ⟨"or statement must have at least 2 conditions",
        by simp [Expressions.Or.tryFrom, if_pos h]⟩
  · intro l
    constructor
    · rintro ⟨msg, h⟩
      by_contra hlt
      simp [Conds.And.tryFrom, if_neg hlt] at h
    · intro h
      exact ⟨"and statement must have at least 2 conditions",
        by simp [Conds.And.tryFrom, if_pos h]⟩
  · intro l
    constructor
    · rintro ⟨msg, h⟩
      by_contra hlt
      simp [Conds.Or.tryFrom, if_neg hlt] at h
    · intro h
      exact ⟨"or statement must have at least 2 conditions",
        by simp [Conds.Or.tryFrom, if_pos h]⟩
  · intro x y rest
    refine ⟨?_, itemAnd_expr_fold x (y :: rest)⟩
    simp [Expressions.And.tryFrom]
  · intro x y rest
    refine ⟨?_, itemOr_expr_fold x (y :: rest)⟩
    simp [Expressions.Or.tryFrom]
  · intro x y rest
    refine ⟨?_, condAnd_expr_fold x (y :: rest)⟩
    simp [Conds.And.tryFrom]
  · intro x y rest
    refine ⟨?_, condOr_expr_fold x (y :: rest)⟩
    simp [Conds.Or.tryFrom]

/-- Claim C4. Scoping of the base directory around nested
configuration loads. The first conjunct characterizes with_current_dir
(utils.rs): an arbitrary body runs on the state whose current
directory is the given one, and afterwards the directory in effect at
entry is restored, identically on the Ok and the Err path; since this
holds for every body, every nesting of switches unwinds in LIFO order,
each level recovering the directory it entered with. The second
conjunct restates the restoration. The third shows that path
resolution inside the nested document resolves relative paths against
the directory current at that moment. The fourth and fifth conjunct
tie this to nested Config sources: ConfigSource::load is
Config::from_path of the nested file with its load as continuation,
and from_path runs the parse and the continuation inside
with_current_dir of the parent directory of the canonicalized nested
path. The sixth conjunct: from_path leaves the current directory as
it found it, whether it fails at canonicalization, at reading, or
anywhere inside the nested load. -/
theorem c4_nested_config_dir_scoping :
    (∀ (α : Type) (p : String) (body : M α) (s : Fs),
        withCurrentDir p body s =
          ((body (setCwdState s p)).1, setCwdState (body (setCwdState s p)).2 s.cwd)) ∧
    (∀ (α : Type) (p : String) (body : M α) (s : Fs),
        ((withCurrentDir p body) s).2.cwd = s.cwd) ∧
    (∀ (q : String) (s : Fs),
        canonicalize q s =
          (if s.entries.contains (resolve s.cwd q) = true then .ok (resolve s.cwd q)
            else .error (.other ("No such file or directory: " ++ resolve s.cwd q)), s)) ∧
    (∀ (fuel : Nat) (cs : ConfigSource),
        ConfigSource.load (fuel + 1) cs =
          Config.fromPath cs.path.path (fun c => Config.loadWith (loadConfigFuel fuel) c)) ∧
    (∀ (R : Type) (path : String) (func : Config → M R),
        Config.fromPath path func =
          canonicalize path >>= fun cp =>
            readConfigDoc cp >>= fun raw =>
              withCurrentDir (parentDir cp)
                (raw.deserialize >>= fun config => func config)) ∧
    (∀ (R : Type) (path : String) (func : Config → M R) (s : Fs),
        ((Config.fromPath path func) s).2.cwd = s.cwd) := by
  refine ⟨fun α => @withCurrentDir_run α, fun α => @withCurrentDir_cwd α, ?_, ?_, ?_, ?_⟩
  · intro q s
    simp only [canonicalize]
    split <;> simp_all
  · intro fuel cs
    rfl
  · intro R path func
    rfl
  · intro R path func s
    refine M.bindM_cwd (canonicalize path) _ (fun s => by rw [canonicalize_snd]) ?_ s
    intro cp
    refine M.bindM_cwd (readConfigDoc cp) _ (fun s => readConfigDoc_cwd cp s) ?_
    intro raw s2
    exact withCurrentDir_cwd _ _ _

/-- Claim C3. Evaluation of an ExpressionChain is the monadic left
fold of the operation list over the evaluated base expression; with an
empty operation list the chain evaluates to exactly what its base
evaluates to. -/
theorem c3_chain_eval_is_fold (base : ExpressionItem) :
    (∀ ops : List OpItem,
        (ExpressionChain.mk base ops).expr =
          base.expr >>= fun e => ops.foldlM (fun acc op => OpItem.apply op acc) e) ∧
      (ExpressionChain.mk base []).expr = base.expr := by
  constructor
  · intro ops
    simp only [ExpressionChain.expr]
    cases base.expr <;> simp [Except.bind, opsFold_eq_foldlM]
  · simp only [ExpressionChain.expr]
    cases base.expr <;> simp [Except.bind, opsFold]

/-- Claim C5. Config::run on a configuration whose export list is
empty fails with the NoExports error and returns the entry state
unchanged: no directory switch, no file read, no plan is built and no
export side effect is traced, because the emptiness check precedes
all of them. -/
theorem c5_run_no_exports (fuel : Nat) (cfg : Config) (s : Fs)
    (h : cfg.exports = []) :
    Config.run fuel cfg s = (.error Error.noExports, s) := by
  simp only [Config.run, h]
  rfl

/-- Witness for C5: a concrete configuration with an inline source,
one transform and zero exports fails with NoExports from a concrete
state, leaving the state untouched. -/
theorem c5_run_no_exports_witness :
    Config.run 1 ⟨.mk (.inline ⟨0⟩) [], [.collect], []⟩ ⟨"/", [], [], [], "", []⟩ =
      (.error Error.noExports, ⟨"/", [], [], [], "", []⟩) :=
  c5_run_no_exports 1 ⟨.mk (.inline ⟨0⟩) [], [.collect], []⟩ ⟨"/", [], [], [], "", []⟩ rfl

/-- Claim C6. With a non-empty export list, Config::run is one load
of the plan followed by the export loop: the plan is bound once and
every export receives that same plan value (cloning a plan value is
the value itself), in document order; the loop runs an export and
continues only on success, so when export i fails with an error the
run returns exactly that error in exactly the state export i failed
in, with no side effect of exports i+1..n traced. -/
theorem c6_run_load_once_exports_in_order :
    (∀ (fuel : Nat) (src : Loader) (tfs : List TransformItem)
        (e : ExportItem) (es : List ExportItem),
        Config.run fuel ⟨src, tfs, e :: es⟩ =
          Config.load fuel ⟨src, tfs, e :: es⟩ >>= exportsRun (e :: es)) ∧
    (∀ (e : ExportItem) (rest : List ExportItem) (lf : LazyFrame),
        exportsRun (e :: rest) lf = e.export lf >>= fun _ => exportsRun rest lf) ∧
    (∀ (e : ExportItem) (rest : List ExportItem) (lf : LazyFrame) (s s' : Fs) (err : Error),
        e.export lf s = (.error err, s') →
          exportsRun (e :: rest) lf s = (.error err, s')) := by
  refine ⟨?_, ?_, ?_⟩
  · intro fuel src tfs e es
    rfl
  · intro e rest lf
    rfl
  · intro e rest lf s s' err h
    show M.bindM (e.export lf) (fun _ => exportsRun rest lf) s = (.error err, s')
    rw [M.bindM_apply, h]

/-- Witness for C6: a concrete export whose write fails (its target
path is marked failing in the environment) aborts a two-export loop
with that error; the final state carries only the directory-creation
event of the first export and no event of the second. -/
theorem c6_run_load_once_exports_in_order_witness :
    exportsRun
        [ExportItem.csv ⟨"out", "r", none, none⟩, ExportItem.csv ⟨"out", "r2", none, none⟩]
        (LazyFrame.inlineFrame 0) ⟨"/", [], [], ["out/r.csv"], "", []⟩ =
      (.error (.other "could not write file: out/r.csv"),
        ⟨"/", [], [], ["out/r.csv"], "", [.createDir "out"]⟩) :=
  c6_run_load_once_exports_in_order.2.2 (ExportItem.csv ⟨"out", "r", none, none⟩)
    [ExportItem.csv ⟨"out", "r2", none, none⟩] (LazyFrame.inlineFrame 0)
    ⟨"/", [], [], ["out/r.csv"], "", []⟩
    ⟨"/", [], [], ["out/r.csv"], "", [.createDir "out"]⟩
    (.other "could not write file: out/r.csv") rfl

/-- Claim C7. Config::load is the plan of the source loader followed
by the document-level transform fold: the source plan is folded first
with the loader-local transforms, then with the document-level
transforms, both in document order; the transform fold is the monadic
left fold of TransformItem::transform. -/
theorem c7_two_stage_transforms (fuel : Nat) :
    (∀ cfg : Config,
        Config.load fuel cfg =
          SourceItem.load fuel cfg.source.source >>= fun lf =>
            transformsFold fuel cfg.source.transforms lf >>= fun lf2 =>
              transformsFold fuel cfg.transforms lf2) ∧
    (∀ l : Loader,
        Loader.load fuel l =
          SourceItem.load fuel l.source >>= transformsFold fuel l.transforms) ∧
    (∀ (ts : List TransformItem) (lf : LazyFrame),
        transformsFold fuel ts lf =
          ts.foldlM (fun acc t => TransformItem.transform fuel t acc) lf) := by
  refine ⟨?_, ?_, ?_⟩
  · intro cfg
    rcases cfg with ⟨l, tfs, exps⟩
    rcases l with ⟨src, ltfs⟩
    show (SourceItem.load fuel src >>= fun lf => transformsFold fuel ltfs lf) >>=
        (fun lf2 => transformsFold fuel tfs lf2) = _
    rw [M.bind_assoc]
    rfl
  · intro l
    rcases l with ⟨src, ltfs⟩
    rfl
  · intro ts
    induction ts with
    | nil => intro lf; rfl
    | cons t rest ih =>
      intro lf
      show (TransformItem.transform fuel t lf >>= fun lf2 => transformsFold fuel rest lf2) = _
      simp only [List.foldlM, M.bind_def]
      exact M.bindM_congr _ _ _ ih

/-- Claim C8. The Filter transform turns the chain list into
successive filter nodes over the incoming plan, in document order
(failing exactly when evaluating some chain fails, with the first
error); under the row-level contract of the filter node, the resulting
plan keeps exactly the rows on which every chain predicate holds, the
conjunction of the chains. -/
theorem c8_filter_keeps_conjunction (chains : List ExpressionChain) (lf : LazyFrame) :
    (Filter.transform chains lf =
      Except.map (fun es => es.foldl LazyFrame.filter lf) (chainExprs chains)) ∧
    (∀ fuel : Nat,
        TransformItem.transform fuel (.filter chains) lf =
          liftR (Filter.transform chains lf)) ∧
    (∀ (Row : Type) (sem : Row → Expr → Bool) (base : LazyFrame → List Row)
        (es : List Expr),
        planRows sem base (es.foldl LazyFrame.filter lf) =
          (planRows sem base lf).filter (fun r => es.all (fun e => sem r e))) := by
  refine ⟨?_, fun fuel => rfl, ?_⟩
  · induction chains generalizing lf with
    | nil => rfl
    | cons c rest ih =>
      show filtersFold (c :: rest) lf = _
      simp only [filtersFold, chainExprs]
      cases hc : c.expr with
      | error e => rfl
      | ok ce =>
        simp only [exceptBind_ok]
        show filtersFold rest (.filter lf ce) = _
        have ihc := ih (LazyFrame.filter lf ce)
        rw [show Filter.transform rest (LazyFrame.filter lf ce) =
            filtersFold rest (LazyFrame.filter lf ce) from rfl] at ihc
        rw [ihc]
        cases hr : chainExprs rest <;> simp [Except.map]
  · intro Row sem base es
    induction es generalizing lf with
    | nil => simp [List.all_nil, List.filter_true]
    | cons e rest ih =>
      simp only [List.foldl_cons]
      rw [ih (LazyFrame.filter lf e)]
      show ((planRows sem base lf).filter (fun r => sem r e)).filter
          (fun r => rest.all (fun e => sem r e)) = _
      simp [List.filter_filter, List.all_cons, Bool.and_comm]

/-- Claim C9 counterexample. The claim states that every
path-referencing source variant, the Parquet variant included, has its
paths canonicalized during deserialization, failing the parse when a
referenced path does not exist. In the code the paths field of
ParquetSource is a plain Arc of PlPath values with no TryFrom hook
(sources.rs lines 214 to 221): deserializing a parquet source whose
path does not exist, from a state whose file system is empty, succeeds
and passes the relative path through unresolved and unchecked. -/
theorem c9_parquet_not_canonicalized_counterexample :
    (Fs.mk "/root" [] [] [] "" []).entries.contains "/root/data.parquet" = false ∧
    RawSourceItem.deserialize (.parquet ⟨["data.parquet"], none⟩)
        (Fs.mk "/root" [] [] [] "" []) =
      (.ok (.parquet ⟨["data.parquet"], none⟩), Fs.mk "/root" [] [] [] "" []) :=
  ⟨rfl, rfl⟩

/-- Claim C9 as amended. During deserialization: the Json and Config
variants canonicalize their single path against the current directory
and fail the whole parse exactly when it does not exist; the Csv and
JSON-Lines variants glob-expand their pattern and canonicalize the
matches, so a path that matches nothing yields an empty path list
without any error; the Parquet variant performs no canonicalization
and no existence check at all, its paths passing through verbatim. -/
theorem c9_path_canonicalization_amended (s : Fs) :
    (∀ (p : String) (sch : Option Schema),
        RawSourceItem.deserialize (.json ⟨p, sch⟩) s =
          ((canonicalize p s).1.map (fun cp => SourceItem.json ⟨⟨cp⟩, sch⟩), s)) ∧
    (∀ p : String,
        RawSourceItem.deserialize (.config ⟨p⟩) s =
          ((canonicalize p s).1.map (fun cp => SourceItem.config ⟨⟨cp⟩⟩), s)) ∧
    (∀ q : String,
        (canonicalize q s).1 =
          if s.entries.contains (resolve s.cwd q) = true then .ok (resolve s.cwd q)
          else .error (.other ("No such file or directory: " ++ resolve s.cwd q))) ∧
    (∀ (p : String) (hh : Option Bool) (sch : Option Schema),
        RawSourceItem.deserialize (.csv ⟨p, none, hh, sch⟩) s =
          (.ok (.csv ⟨⟨s.entries.filter (fun e => e == resolve s.cwd p)⟩, none, hh, sch⟩),
            s)) ∧
    (∀ (p : String) (sch : Option Schema),
        RawSourceItem.deserialize (.jsonLine ⟨p, sch⟩) s =
          (.ok (.jsonLine ⟨⟨s.entries.filter (fun e => e == resolve s.cwd p)⟩, sch⟩), s)) ∧
    (∀ (paths : List String) (sch : Option Schema),
        RawSourceItem.deserialize (.parquet ⟨paths, sch⟩) s =
          (.ok (.parquet ⟨paths, sch⟩), s)) := by
  refine ⟨?_, ?_, ?_, fun p hh sch => rfl, fun p sch => rfl, fun paths sch => rfl⟩
  · intro p sch
    show M.bindM (CanonicalPath.tryFrom p) _ s = _
    simp only [CanonicalPath.tryFrom, M.bind_def, M.bindM_apply, canonicalize]
    cases h : s.entries.contains (resolve s.cwd p) <;> simp [h] <;> rfl
  · intro p
    show M.bindM (CanonicalPath.tryFrom p) _ s = _
    simp only [CanonicalPath.tryFrom, M.bind_def, M.bindM_apply, canonicalize]
    cases h : s.entries.contains (resolve s.cwd p) <;> simp [h] <;> rfl
  · intro q
    simp only [canonicalize]
    cases h : s.entries.contains (resolve s.cwd q) <;> simp [h]

/-- Claim C10. Applied to an empty list of chains, both the And and
the Or operation-chain items return the incoming expression unchanged
(the try_fold over an empty vector is the identity); there is no
minimum-arity requirement on these operations. -/
theorem c10_empty_op_and_or_identity (e : Expr) :
    OpItem.apply (.and []) e = .ok e ∧ OpItem.apply (.or []) e = .ok e :=
  ⟨rfl, rfl⟩

end Retl
